import Mathlib

/-!
Verification of the enrollment and identity data-access core of the
student class registration application.

The definitions below are shallow embeddings, translated from the
TypeScript source:
  * `checkRateLimit` / `clearRateLimit`  — lib/auth.ts rate limiter
  * `validatePasswordStrength`           — lib/auth.ts password scoring
  * user / enrollment repository         — lib/db.ts (DynamoDB commands
    modelled as operations on in-memory tables, with explicit fault flags
    standing for backing-store errors)
  * the /api/enrollments route handlers  — app/api/enrollments/route.ts

Machine integers are modelled as `Int`/`Nat`; JavaScript `Date.now()`
timestamps are explicit `Int` parameters; `Map` state is an association
list threaded through each operation.
-/

/-! ## Rate limiter (lib/auth.ts: checkRateLimit / clearRateLimit) -/

/-- Entry of the in-memory `authAttempts` map: `{ count, lastAttempt }`. -/
structure RateEntry where
  count : Nat
  lastAttempt : Int
deriving Repr, DecidableEq

/-- The `authAttempts : Map<string, {count, lastAttempt}>` state. -/
abbrev RLState := List (String × RateEntry)

/-- `Map.get` on the modelled map. -/
def rlLookup (st : RLState) (identifier : String) : Option RateEntry :=
  (st.find? (fun p => p.1 == identifier)).map (fun p => p.2)

/-- `Map.set` on the modelled map (replace if present, else insert). -/
def rlSet (st : RLState) (identifier : String) (e : RateEntry) : RLState :=
  if st.any (fun p => p.1 == identifier) then
    st.map (fun p => if p.1 == identifier then (identifier, e) else p)
  else
    st ++ [(identifier, e)]

/-- `Map.delete` on the modelled map. -/
def rlDelete (st : RLState) (identifier : String) : RLState :=
  st.filter (fun p => p.1 != identifier)

/-- Embedding of `checkRateLimit(identifier, maxAttempts, windowMs)`;
`now` is the value of `Date.now()` at the call, the map state is passed
and returned explicitly. -/
def checkRateLimit (st : RLState) (identifier : String) (maxAttempts : Nat)
    (windowMs : Int) (now : Int) : Bool × RLState :=
  match rlLookup st identifier with
  | none => (true, rlSet st identifier ⟨1, now⟩)
  | some attempts =>
    if now - attempts.lastAttempt > windowMs then
      (true, rlSet st identifier ⟨1, now⟩)
    else if attempts.count ≥ maxAttempts then
      (false, st)
    else
      (true, rlSet st identifier ⟨attempts.count + 1, now⟩)

/-- Embedding of `clearRateLimit(identifier)`. -/
def clearRateLimit (st : RLState) (identifier : String) : RLState :=
  rlDelete st identifier

/-- Run a sequence of `checkRateLimit` calls for one identifier at the
given timestamps, collecting the returned booleans. -/
def runChecks (identifier : String) (maxAttempts : Nat) (windowMs : Int) :
    RLState → List Int → List Bool × RLState
  | st, [] => ([], st)
  | st, t :: ts =>
    let r := checkRateLimit st identifier maxAttempts windowMs t
    let rest := runChecks identifier maxAttempts windowMs r.2 ts
    (r.1 :: rest.1, rest.2)

/-! ### Spec-side fixed-window algorithm (for comparison only)

The specification describes the limiter as a fixed window anchored at the
first request: the first call creates a window expiring at
`now + windowMs`; calls within the window increment; a call after the
expiry time resets.  The definitions below formalise that description
verbatim so it can be compared with `checkRateLimit` above. -/

/-- Spec-described window entry: a count and a fixed expiry instant. -/
structure FixedWindowEntry where
  count : Nat
  windowExpiry : Int
deriving Repr, DecidableEq

/-- State of the spec-described fixed-window limiter. -/
abbrev FWState := List (String × FixedWindowEntry)

/-- `Map.get` for the spec-side state. -/
def fwLookup (st : FWState) (identifier : String) : Option FixedWindowEntry :=
  (st.find? (fun p => p.1 == identifier)).map (fun p => p.2)

/-- `Map.set` for the spec-side state. -/
def fwSet (st : FWState) (identifier : String) (e : FixedWindowEntry) : FWState :=
  if st.any (fun p => p.1 == identifier) then
    st.map (fun p => if p.1 == identifier then (identifier, e) else p)
  else
    st ++ [(identifier, e)]

/-- Fixed-window check exactly as the specification words it: the window
expires at `now + windowMs` set when the window was opened, and only a
call strictly after that instant resets the count. -/
def specFixedWindowCheck (st : FWState) (identifier : String) (maxAttempts : Nat)
    (windowMs : Int) (now : Int) : Bool × FWState :=
  match fwLookup st identifier with
  | none => (true, fwSet st identifier ⟨1, now + windowMs⟩)
  | some entry =>
    if now > entry.windowExpiry then
      (true, fwSet st identifier ⟨1, now + windowMs⟩)
    else if entry.count ≥ maxAttempts then
      (false, st)
    else
      (true, fwSet st identifier ⟨entry.count + 1, entry.windowExpiry⟩)

/-- Run a sequence of spec-side fixed-window checks. -/
def runSpecChecks (identifier : String) (maxAttempts : Nat) (windowMs : Int) :
    FWState → List Int → List Bool × FWState
  | st, [] => ([], st)
  | st, t :: ts =>
    let r := specFixedWindowCheck st identifier maxAttempts windowMs t
    let rest := runSpecChecks identifier maxAttempts windowMs r.2 ts
    (r.1 :: rest.1, rest.2)

/-! ## Password strength (lib/auth.ts: validatePasswordStrength) -/

/-- Result shape `{ isValid, score, feedback }`. -/
structure PasswordStrength where
  isValid : Bool
  score : Int
  feedback : List String
deriving Repr, DecidableEq

/-- Character class of the regex
`[!@#$%^&*()_+\-=\[\]{};':"\\|,.<>\/?]` (special characters), given by
ASCII code. -/
def specialChars : List Char :=
  [33, 64, 35, 36, 37, 94, 38, 42, 40, 41, 95, 43, 45, 61, 91, 93, 123,
   125, 59, 39, 58, 34, 92, 124, 44, 46, 60, 62, 47, 63].map Char.ofNat

/-- Membership in the special-character class. -/
def isSpecialChar (c : Char) : Bool :=
  specialChars.contains c

/-- Regex `(.)\1{2,}`: some character occurs three or more times
consecutively. -/
def hasTripleRepeat : List Char → Bool
  | a :: b :: c :: rest => (a == b && b == c) || hasTripleRepeat (b :: c :: rest)
  | _ => false

/-- Whether `pat` occurs at the head of `hay`. -/
def leadsWith : List Char → List Char → Bool
  | [], _ => true
  | _ :: _, [] => false
  | a :: as, b :: bs => a == b && leadsWith as bs

/-- Whether `pat` occurs as a contiguous subsequence of `hay`. -/
def containsSeq (pat : List Char) : List Char → Bool
  | [] => leadsWith pat []
  | c :: cs => leadsWith pat (c :: cs) || containsSeq pat cs

/-- The weak-pattern alternation `123|abc|qwe|password|admin`. -/
def weakPatterns : List (List Char) :=
  ["123", "abc", "qwe", "password", "admin"].map String.toList

/-- Regex `/123|abc|qwe|password|admin/i`: case-insensitive containment of
a weak pattern. -/
def hasWeakPattern (cs : List Char) : Bool :=
  weakPatterns.any (fun pat => containsSeq pat (cs.map Char.toLower))

/-- The sequential score updates of `validatePasswordStrength`, in source
order: the two length bonuses, the four character-class bonuses, the
repeat penalty, the weak-pattern penalty. -/
def pwScore (password : String) : Int :=
  let cs := password.toList
  let s1 : Int := if password.length ≥ 8 then 1 else 0
  let s2 := if password.length ≥ 12 then s1 + 1 else s1
  let s3 := if cs.any Char.isLower then s2 + 1 else s2
  let s4 := if cs.any Char.isUpper then s3 + 1 else s3
  let s5 := if cs.any Char.isDigit then s4 + 1 else s4
  let s6 := if cs.any isSpecialChar then s5 + 1 else s5
  let s7 := if hasTripleRepeat cs then s6 - 1 else s6
  if hasWeakPattern cs then s7 - 2 else s7

/-- The `feedback` pushes of `validatePasswordStrength`, in source
order. -/
def pwFeedback (password : String) : List String :=
  let cs := password.toList
  (if password.length < 8 then ["Password must be at least 8 characters long"] else []) ++
  (if cs.any Char.isLower then [] else ["Include lowercase letters"]) ++
  (if cs.any Char.isUpper then [] else ["Include uppercase letters"]) ++
  (if cs.any Char.isDigit then [] else ["Include numbers"]) ++
  (if cs.any isSpecialChar then [] else ["Include special characters"]) ++
  (if hasTripleRepeat cs then ["Avoid repeating characters"] else []) ++
  (if hasWeakPattern cs then ["Avoid common patterns"] else [])

/-- Embedding of `validatePasswordStrength(password)`. -/
def validatePasswordStrength (password : String) : PasswordStrength :=
  if password.isEmpty then
    { isValid := false, score := 0, feedback := ["Password is required"] }
  else
    let score := pwScore password
    let isValid := decide (score ≥ 4) && decide (password.length ≥ 8)
    let fb := pwFeedback password
    { isValid := isValid
      score := max 0 score
      feedback := if fb.isEmpty && isValid then ["Strong password!"] else fb }

/-- The specification's additive rubric, written as one arithmetic sum:
bonuses for length and character classes minus the two penalties. -/
def specScore (password : String) : Int :=
  let cs := password.toList
  (if password.length ≥ 8 then 1 else 0) +
  (if password.length ≥ 12 then 1 else 0) +
  (if cs.any Char.isLower then 1 else 0) +
  (if cs.any Char.isUpper then 1 else 0) +
  (if cs.any Char.isDigit then 1 else 0) +
  (if cs.any isSpecialChar then 1 else 0) -
  (if hasTripleRepeat cs then 1 else 0) -
  (if hasWeakPattern cs then 2 else 0)

/-! ## Validators (lib/db-errors.ts) -/

/-- `String.prototype.toLowerCase()`, character by character. -/
def strToLower (s : String) : String :=
  ⟨s.toList.map Char.toLower⟩

/-- `String.prototype.trim()`: strip leading and trailing whitespace. -/
def strTrim (s : String) : String :=
  ⟨((s.toList.dropWhile Char.isWhitespace).reverse.dropWhile
      Char.isWhitespace).reverse⟩

/-- Normalization `email.toLowerCase().trim()` used throughout lib/db.ts. -/
def normalizeEmail (email : String) : String :=
  strTrim (strToLower email)

/-- Split a character list at every occurrence of `sep`. -/
def splitOnChar (sep : Char) : List Char → List (List Char)
  | [] => [[]]
  | c :: rest =>
    match splitOnChar sep rest with
    | [] => if c == sep then [[], []] else [[c]]
    | h :: t => if c == sep then [] :: h :: t else (c :: h) :: t

/-- Regex `^[^\s@]+@[^\s@]+\.[^\s@]+$`: exactly one `@`; a nonempty
whitespace-free local part; a nonempty whitespace-free domain containing
a dot that is neither its first nor its last character. -/
def validEmailFormat (s : String) : Bool :=
  match splitOnChar (Char.ofNat 64) s.toList with
  | [localPart, domainPart] =>
    !localPart.isEmpty && localPart.all (fun c => !c.isWhitespace) &&
    !domainPart.isEmpty && domainPart.all (fun c => !c.isWhitespace) &&
    (domainPart.drop 1).dropLast.contains (Char.ofNat 46)
  | _ => false

/-- Embedding of `validateEmail` as a boolean (the source throws a
`ValidationError` exactly when this returns `false`). -/
def validateEmailB (email : String) : Bool :=
  !email.isEmpty && validEmailFormat email && email.length ≤ 254

/-- Embedding of `validateStudentId` as a boolean. -/
def validateStudentIdB (studentId : String) : Bool :=
  !studentId.isEmpty && 5 ≤ studentId.length && studentId.length ≤ 20 &&
  studentId.toList.all (fun c => c.isAlphanum || c == Char.ofNat 45)

/-- Embedding of `validateName` as a boolean. -/
def validateNameB (name : String) : Bool :=
  !name.isEmpty && 2 ≤ name.length && name.length ≤ 50 &&
  name.toList.all (fun c => c.isAlpha || c.isWhitespace ||
    c == Char.ofNat 45 || c == Char.ofNat 39)

/-- Error classes produced by `handleDynamoDBError` (lib/db-errors.ts). -/
inductive DatabaseErrorKind where
  | validation
  | notFound
  | conflict
  | rateLimit
  | dataLimit
  | accessDenied
  | internal
deriving Repr, DecidableEq

/-- Embedding of `handleDynamoDBError`, switching on `error.name`. -/
def handleDynamoDBError (errorName : String) : DatabaseErrorKind :=
  if errorName == "ConditionalCheckFailedException" then .conflict
  else if errorName == "ResourceNotFoundException" then .notFound
  else if errorName == "ValidationException" then .validation
  else if errorName == "ProvisionedThroughputExceededException" then .rateLimit
  else if errorName == "ItemCollectionSizeLimitExceededException" then .dataLimit
  else if errorName == "AccessDeniedException" then .accessDenied
  else .internal

/-! ## Data model (lib/db.ts) -/

/-- Enrollment lifecycle states. -/
inductive EStatus where
  | active
  | dropped
deriving Repr, DecidableEq

/-- The `Enrollment` record.  `updatedAt` is absent on creation and set by
`unenrollFromClass` (DynamoDB items are schemaless, so the extra
attribute appears only on dropped records). -/
structure Enrollment where
  id : String
  email : String
  className : String
  classId : String
  enrolledAt : String
  status : EStatus
  updatedAt : Option String := none
deriving Repr, DecidableEq

/-- The `User` record. -/
structure User where
  email : String
  passwordHash : String
  name : String
  studentId : String
  createdAt : String
  updatedAt : String
deriving Repr, DecidableEq

/-- DynamoDB `PutCommand` on the enrollments table (keyed by `id`):
replace the item with the same key, or insert. -/
def putItem (store : List Enrollment) (item : Enrollment) : List Enrollment :=
  if store.any (fun e => e.id == item.id) then
    store.map (fun e => if e.id == item.id then item else e)
  else
    store ++ [item]

/-! ## User repository (lib/db.ts: createUser / getUserByEmail)

Backing-store faults are injected through explicit boolean flags; a flag
set to `true` stands for the corresponding AWS SDK call throwing. -/

/-- Embedding of `createUser`.  The single `PutCommand` carries
`ConditionExpression: attribute_not_exists(email)` on the email-keyed
users table, so it fails with `ConditionalCheckFailedException` exactly
when a record with the normalized email already exists; the catch block
routes every thrown error through `handleDynamoDBError`. -/
def createUser (users : List User) (email passwordHash name studentId : String)
    (now : String) (putFails : Bool) :
    Except DatabaseErrorKind (List User × User) :=
  if !validateEmailB email then .error (handleDynamoDBError "ValidationError")
  else if !validateNameB name then .error (handleDynamoDBError "ValidationError")
  else if !validateStudentIdB studentId then .error (handleDynamoDBError "ValidationError")
  else if passwordHash.isEmpty then .error (handleDynamoDBError "Error")
  else
    let user : User :=
      { email := normalizeEmail email
        passwordHash := passwordHash
        name := strTrim name
        studentId := strTrim studentId
        createdAt := now
        updatedAt := now }
    if users.any (fun u => u.email == user.email) then
      .error (handleDynamoDBError "ConditionalCheckFailedException")
    else if putFails then
      .error (handleDynamoDBError "InternalFailure")
    else
      .ok (users ++ [user], user)

/-- Embedding of `getUserByEmail`: a validation failure or any thrown
storage error is caught and collapsed to `null`. -/
def getUserByEmail (users : List User) (email : String) (getFails : Bool) :
    Option User :=
  if !validateEmailB email then none
  else if getFails then none
  else users.find? (fun u => u.email == normalizeEmail email)

/-! ## Enrollment repository (lib/db.ts) -/

/-- Errors thrown by `enrollInClass`. -/
inductive EnrollErr where
  | alreadyEnrolled
  | genericFailure
deriving Repr, DecidableEq

/-- Embedding of `enrollInClass`: builds the id
`` `${email}-${classId}-${Date.now()}` `` from the raw email, stores the
normalized email in the record, and performs a `PutCommand` conditioned
on `attribute_not_exists(id)`; a conditional-check failure is rethrown as
the already-enrolled error, anything else as the generic failure. -/
def enrollInClass (store : List Enrollment) (email className classId : String)
    (nowIso : String) (nowMs : Int) (putFails : Bool) :
    Except EnrollErr (List Enrollment) :=
  let enrollmentId := email ++ "-" ++ classId ++ "-" ++ toString nowMs
  let enrollment : Enrollment :=
    { id := enrollmentId
      email := normalizeEmail email
      className := className
      classId := classId
      enrolledAt := nowIso
      status := .active
      updatedAt := none }
  if store.any (fun e => e.id == enrollmentId) then .error .alreadyEnrolled
  else if putFails then .error .genericFailure
  else .ok (store ++ [enrollment])

/-- Embedding of `getUserEnrollments`: a table scan filtered on the
normalized email, then a JavaScript-side filter to active records; any
thrown error is caught and collapsed to the empty list. -/
def getUserEnrollments (store : List Enrollment) (email : String)
    (scanFails : Bool) : List Enrollment :=
  if scanFails then []
  else
    ((store.filter (fun e => e.email == normalizeEmail email)).filter
      (fun e => e.status == EStatus.active))

/-- Embedding of `isUserEnrolledInClass`: true iff some active enrollment
for the email has the given `classId`; errors collapse to `false`. -/
def isUserEnrolledInClass (store : List Enrollment) (email classId : String)
    (scanFails : Bool) : Bool :=
  (getUserEnrollments store email scanFails).any (fun e => e.classId == classId)

/-- Embedding of `getAllEnrollments` (unfiltered scan; errors collapse to
the empty list). -/
def getAllEnrollments (store : List Enrollment) (scanFails : Bool) :
    List Enrollment :=
  if scanFails then [] else store

/-- Body of the `try` block of `unenrollFromClass`: find the first active
record whose `classId` or `className` equals the lookup key, throw
`'Enrollment not found'` if none, else put the record back with
`status: 'dropped'` and a fresh `updatedAt`. -/
def unenrollBody (store : List Enrollment) (email classIdOrName : String)
    (nowIso : String) (scanFails putFails : Bool) :
    Except String (List Enrollment) :=
  let enrollments := getUserEnrollments store email scanFails
  match enrollments.find? (fun e =>
      e.classId == classIdOrName || e.className == classIdOrName) with
  | none => .error "Enrollment not found"
  | some enrollment =>
    if putFails then .error "Put failed"
    else .ok (putItem store
      { enrollment with status := .dropped, updatedAt := some nowIso })

/-- What `unenrollFromClass` delivers to its caller. -/
inductive DropOutcome where
  | ok (newStore : List Enrollment)
  | genericFailure
deriving Repr, DecidableEq

/-- Embedding of `unenrollFromClass`: its own catch block swallows every
error thrown inside the body — including the internal
`'Enrollment not found'` — and rethrows the single generic
`'Failed to unenroll from class'` error. -/
def unenrollFromClass (store : List Enrollment) (email classIdOrName : String)
    (nowIso : String) (scanFails putFails : Bool) : DropOutcome :=
  match unenrollBody store email classIdOrName nowIso scanFails putFails with
  | .ok s => .ok s
  | .error _ => .genericFailure

/-! ## Route handlers (app/api/enrollments/route.ts) -/

/-- The `{email, name, studentId}` triple of an authenticated session. -/
structure SessionUser where
  email : String
  name : String
  studentId : String
deriving Repr, DecidableEq

/-- Embedding of `requireAuthentication`: succeeds with the session user
exactly when a session exists and `session.user.email` is truthy; in the
handlers a failure becomes the dedicated `'Authentication required'`
error caught by each outer catch block. -/
def resolveAuth : Option SessionUser → Option SessionUser
  | none => none
  | some u => if u.email.isEmpty then none else some u

/-- Outcome of `GET /api/enrollments`. -/
inductive GetOutcome where
  | unauthorized
  | ok (enrollments : List Enrollment)
deriving Repr, DecidableEq

/-- Embedding of the `GET` handler: authenticate, then return the
caller's active enrollments (the debug `getAllEnrollments` read has no
observable effect and is omitted).  The stored state is returned
alongside to make the absence of writes explicit. -/
def enrollmentsGET (store : List Enrollment) (session : Option SessionUser)
    (scanFails : Bool) : GetOutcome × List Enrollment :=
  match resolveAuth session with
  | none => (.unauthorized, store)
  | some user => (.ok (getUserEnrollments store user.email scanFails), store)

/-- The `action` field accepted by `enrollmentSchema`. -/
inductive EnrollAction where
  | enroll
  | unenroll
deriving Repr, DecidableEq

/-- A request body that passed `enrollmentSchema.safeParse`. -/
structure EnrollBody where
  classId : String
  action : EnrollAction
deriving Repr, DecidableEq

/-- Inputs of one `POST /api/enrollments` invocation.  `parsedBody` is
`none` when `parseRequestBody` throws, `some none` when the Zod schema
rejects the body, and `some (some b)` when validation succeeds. -/
structure PostRequest where
  methodOk : Bool
  contentTypeOk : Bool
  session : Option SessionUser
  rateAllowed : Bool
  parsedBody : Option (Option EnrollBody)
deriving Repr, DecidableEq

/-- Outcome of `POST /api/enrollments`.  `conflict` is the 409
`createErrorResponse` (a `success: false` body); `created` is the 201
success; `alreadyEnrolledOk` is the 200 success produced when the
repository itself reports the duplicate. -/
inductive PostOutcome where
  | badRequest (msg : String)
  | unauthorized
  | tooManyRequests
  | conflict (msg : String)
  | notFound (msg : String)
  | created (classId className : String)
  | alreadyEnrolledOk (classId className : String)
  | notImplemented
  | internalError
deriving Repr, DecidableEq

/-- Whether a `POST` outcome is delivered through `createApiResponse`
with a 2xx status (`success: true` in the response body) rather than
through `createErrorResponse` (`success: false`). -/
def PostOutcome.isSuccess : PostOutcome → Bool
  | .created _ _ => true
  | .alreadyEnrolledOk _ _ => true
  | _ => false

/-- The hard-coded `classNames` record of the `POST` handler. -/
def classNames (classId : String) : Option String :=
  if classId == "1" then some "Web Development 101"
  else if classId == "2" then some "Database Basics"
  else if classId == "3" then some "Cybersecurity Fundamentals"
  else none

/-- Embedding of the `POST` handler: method and content-type checks,
authentication, rate limiting (abstracted to the boolean verdict of
`apiRateLimiter.isAllowed`), body validation, the `isUserEnrolledInClass`
pre-check answering 409, class-name resolution, then `enrollInClass` with
its already-enrolled error translated to a 200 success. -/
def enrollmentsPOST (store : List Enrollment) (req : PostRequest)
    (nowIso : String) (nowMs : Int) (scanFails putFails : Bool) :
    PostOutcome × List Enrollment :=
  if !req.methodOk then (.badRequest "Method not allowed", store)
  else if !req.contentTypeOk then (.badRequest "Invalid content type", store)
  else
    match resolveAuth req.session with
    | none => (.unauthorized, store)
    | some user =>
      if !req.rateAllowed then (.tooManyRequests, store)
      else
        match req.parsedBody with
        | none => (.internalError, store)
        | some none => (.badRequest "Invalid enrollment data", store)
        | some (some body) =>
          match body.action with
          | .enroll =>
            if isUserEnrolledInClass store user.email body.classId scanFails then
              (.conflict "You are already enrolled in this class", store)
            else
              match classNames body.classId with
              | none => (.notFound "Class not found", store)
              | some className =>
                match enrollInClass store user.email className body.classId
                    nowIso nowMs putFails with
                | .ok newStore => (.created body.classId className, newStore)
                | .error .alreadyEnrolled =>
                  (.alreadyEnrolledOk body.classId className, store)
                | .error .genericFailure => (.internalError, store)
          | .unenroll => (.notImplemented, store)

/-- Inputs of one `DELETE /api/enrollments` invocation.  `parsedBody` is
`none` when `parseRequestBody` throws, `some none` when the body has no
string `className`, and `some (some cn)` otherwise. -/
structure DeleteRequest where
  methodOk : Bool
  contentTypeOk : Bool
  session : Option SessionUser
  parsedBody : Option (Option String)
deriving Repr, DecidableEq

/-- Outcome of `DELETE /api/enrollments`.  `internalError` is the generic
500 `'Failed to unenroll from class. Please try again.'` response. -/
inductive DeleteOutcome where
  | badRequest (msg : String)
  | unauthorized
  | okUnenrolled (className : String)
  | internalError
deriving Repr, DecidableEq

/-- Embedding of the `DELETE` handler: method and content-type checks,
authentication, body extraction (an empty `className` is falsy and
rejected), then `unenrollFromClass` whose generic failure surfaces as the
500 response. -/
def enrollmentsDELETE (store : List Enrollment) (req : DeleteRequest)
    (nowIso : String) (scanFails putFails : Bool) :
    DeleteOutcome × List Enrollment :=
  if !req.methodOk then (.badRequest "Method not allowed", store)
  else if !req.contentTypeOk then (.badRequest "Invalid content type", store)
  else
    match resolveAuth req.session with
    | none => (.unauthorized, store)
    | some user =>
      match req.parsedBody with
      | none => (.internalError, store)
      | some none => (.badRequest "Class name is required", store)
      | some (some className) =>
        if className.isEmpty then (.badRequest "Class name is required", store)
        else
          match unenrollFromClass store user.email className nowIso
              scanFails putFails with
          | .ok newStore => (.okUnenrolled className, newStore)
          | .genericFailure => (.internalError, store)

/-! ## Helper lemmas -/

lemma checkRateLimit_nil (identifier : String) (ma : Nat) (w now : Int) :
    checkRateLimit [] identifier ma w now = (true, [(identifier, ⟨1, now⟩)]) := rfl

lemma checkRateLimit_of_lookup_none {st : RLState} {identifier : String}
    (ma : Nat) (w now : Int) (h : rlLookup st identifier = none) :
    checkRateLimit st identifier ma w now
      = (true, rlSet st identifier ⟨1, now⟩) := by
  unfold checkRateLimit
  rw [h]

lemma checkRateLimit_of_lookup_some {st : RLState} {identifier : String}
    {c : Nat} {la : Int} (ma : Nat) (w now : Int)
    (h : rlLookup st identifier = some ⟨c, la⟩) :
    checkRateLimit st identifier ma w now
      = if now - la > w then (true, rlSet st identifier ⟨1, now⟩)
        else if c ≥ ma then (false, st)
        else (true, rlSet st identifier ⟨c + 1, now⟩) := by
  unfold checkRateLimit
  rw [h]

lemma rlLookup_singleton (identifier : String) (e : RateEntry) :
    rlLookup [(identifier, e)] identifier = some e := by
  simp [rlLookup]

lemma rlSet_singleton (identifier : String) (e f : RateEntry) :
    rlSet [(identifier, e)] identifier f = [(identifier, f)] := by
  simp [rlSet]

lemma clearRateLimit_singleton (identifier : String) (e : RateEntry) :
    clearRateLimit [(identifier, e)] identifier = [] := by
  simp [clearRateLimit, rlDelete]

set_option maxHeartbeats 2000000 in
lemma pwScore_eq_specScore (p : String) : pwScore p = specScore p := by
  unfold pwScore specScore
  dsimp only
  split_ifs <;> omega

/-! ## Claim C2 (corrected) -/

/-- C2 counterexample: `checkRateLimit` does not implement a fixed window
anchored at the first request.  With `maxAttempts = 2`, `windowMs = 10`
and calls at times 0, 8 and 15, the claimed algorithm (formalised as
`specFixedWindowCheck`) admits the third call — the window opened at 0
expired at 10 — but the code denies it, because the second call moved
`lastAttempt` to 8 and `15 - 8 ≤ 10` with the count exhausted. -/
theorem checkRateLimit_counterexample_not_first_request_anchored :
    (runChecks "alice" 2 10 [] [0, 8, 15]).1 = [true, true, false] ∧
    (runSpecChecks "alice" 2 10 [] [0, 8, 15]).1 = [true, true, true] := by
  constructor <;> rfl

/-- C2 amended: `checkRateLimit` is a fixed-size window measured from the
most recent recorded attempt (`lastAttempt`), not from the first request
of the window.  The first call for an identifier records
`{count 1, lastAttempt now}` and returns true; a call more than
`windowMs` after the last recorded attempt resets to
`{count 1, lastAttempt now}` and returns true; a call within `windowMs`
of the last recorded attempt increments the count, moves `lastAttempt` to
`now`, and returns true while `count < maxAttempts`, and returns false
leaving the state untouched once `count` has reached `maxAttempts`. -/
theorem checkRateLimit_window_from_last_attempt (st : RLState)
    (identifier : String) (maxAttempts : Nat) (windowMs now : Int) :
    (rlLookup st identifier = none →
      checkRateLimit st identifier maxAttempts windowMs now
        = (true, rlSet st identifier ⟨1, now⟩)) ∧
    (∀ (c : Nat) (la : Int), rlLookup st identifier = some ⟨c, la⟩ →
      (now - la > windowMs →
        checkRateLimit st identifier maxAttempts windowMs now
          = (true, rlSet st identifier ⟨1, now⟩)) ∧
      (now - la ≤ windowMs → c < maxAttempts →
        checkRateLimit st identifier maxAttempts windowMs now
          = (true, rlSet st identifier ⟨c + 1, now⟩)) ∧
      (now - la ≤ windowMs → c ≥ maxAttempts →
        checkRateLimit st identifier maxAttempts windowMs now
          = (false, st))) := by
  refine ⟨fun h => checkRateLimit_of_lookup_none _ _ _ h,
    fun c la ha => ⟨?_, ?_, ?_⟩⟩
  · intro hout
    rw [checkRateLimit_of_lookup_some _ _ _ ha, if_pos hout]
  · intro hin hlt
    rw [checkRateLimit_of_lookup_some _ _ _ ha, if_neg (by omega),
      if_neg (by omega)]
  · intro hin hge
    rw [checkRateLimit_of_lookup_some _ _ _ ha, if_neg (by omega),
      if_pos hge]

/-- Witness for the amended C2 theorem: an in-window second call with the
count not yet exhausted increments and restamps `lastAttempt`. -/
theorem checkRateLimit_window_from_last_attempt_witness :
    checkRateLimit [("u", ⟨1, 0⟩)] "u" 5 100 50
      = (true, rlSet [("u", ⟨1, 0⟩)] "u" ⟨2, 50⟩) :=
  (((checkRateLimit_window_from_last_attempt [("u", ⟨1, 0⟩)] "u" 5 100 50).2
    1 0 (by rfl)).2.1) (by decide) (by decide)

/-! ## Claim C3 (confirmed) -/

/-- C3: with `maxAttempts = 3`, `windowMs = 60000` and a fresh identifier,
four calls whose consecutive gaps stay within the window return
true, true, true, false; after `clearRateLimit` removes the counter, the
next call returns true again at any time. -/
theorem rateLimit_three_allowed_then_blocked_then_cleared
    (identifier : String) (t1 t2 t3 t4 t5 : Int)
    (h12 : t2 - t1 ≤ 60000) (h23 : t3 - t2 ≤ 60000) (h34 : t4 - t3 ≤ 60000) :
    (runChecks identifier 3 60000 [] [t1, t2, t3, t4]).1
      = [true, true, true, false] ∧
    (checkRateLimit
      (clearRateLimit (runChecks identifier 3 60000 [] [t1, t2, t3, t4]).2
        identifier)
      identifier 3 60000 t5).1 = true := by
  have e1 := checkRateLimit_nil identifier 3 60000 t1
  have e2 : checkRateLimit [(identifier, ⟨1, t1⟩)] identifier 3 60000 t2
      = (true, [(identifier, ⟨2, t2⟩)]) := by
    rw [checkRateLimit_of_lookup_some _ _ _ (rlLookup_singleton identifier ⟨1, t1⟩),
      if_neg (by omega), if_neg (by omega), rlSet_singleton]
  have e3 : checkRateLimit [(identifier, ⟨2, t2⟩)] identifier 3 60000 t3
      = (true, [(identifier, ⟨3, t3⟩)]) := by
    rw [checkRateLimit_of_lookup_some _ _ _ (rlLookup_singleton identifier ⟨2, t2⟩),
      if_neg (by omega), if_neg (by omega), rlSet_singleton]
  have e4 : checkRateLimit [(identifier, ⟨3, t3⟩)] identifier 3 60000 t4
      = (false, [(identifier, ⟨3, t3⟩)]) := by
    rw [checkRateLimit_of_lookup_some _ _ _ (rlLookup_singleton identifier ⟨3, t3⟩),
      if_neg (by omega), if_pos (by omega)]
  constructor
  · simp only [runChecks, e1, e2, e3, e4]
  · simp only [runChecks, e1, e2, e3, e4, clearRateLimit_singleton,
      checkRateLimit_nil]

/-- Witness for C3 at the concrete times 0, 1, 2, 3, 4. -/
theorem rateLimit_three_allowed_then_blocked_then_cleared_witness :
    (runChecks "student" 3 60000 [] [0, 1, 2, 3]).1
      = [true, true, true, false] ∧
    (checkRateLimit
      (clearRateLimit (runChecks "student" 3 60000 [] [0, 1, 2, 3]).2 "student")
      "student" 3 60000 4).1 = true :=
  rateLimit_three_allowed_then_blocked_then_cleared "student" 0 1 2 3 4
    (by decide) (by decide) (by decide)

/-! ## Claim C8 (confirmed) -/

/-- C8: `validatePasswordStrength` is the deterministic additive rubric:
`isValid` holds exactly when the pre-clamp score (one point each for
length at least 8, length at least 12, a lowercase letter, an uppercase
letter, a digit and a symbol, minus one for a character repeated three or
more times consecutively, minus two for a case-insensitive weak pattern)
is at least 4 and the length is at least 8, the reported score is the
pre-clamp score clamped to a minimum of 0, and the four reference
passwords validate as the specification states. -/
theorem validatePasswordStrength_rubric (p : String) :
    (validatePasswordStrength p).isValid
      = (decide (specScore p ≥ 4) && decide (p.length ≥ 8)) ∧
    (validatePasswordStrength p).score = max 0 (specScore p) ∧
    (validatePasswordStrength "weak").isValid = false ∧
    (validatePasswordStrength "StrongPassword123!").isValid = true ∧
    (validatePasswordStrength "NOLOWERCASE123!").isValid = false ∧
    (validatePasswordStrength "nonumbers123").isValid = false := by
  refine ⟨?_, ?_, by decide, by decide, by decide, by decide⟩ <;>
    by_cases h : p.isEmpty
  · rw [(String.isEmpty_iff p).mp h]
    decide
  · unfold validatePasswordStrength
    rw [if_neg h, pwScore_eq_specScore]
  · rw [(String.isEmpty_iff p).mp h]
    decide
  · unfold validatePasswordStrength
    rw [if_neg h, pwScore_eq_specScore]

/-! ## Claim C10 (confirmed) -/

/-- C10: the repository read operations collapse every backing-store
failure into their no-result value: on a store error
`getUserEnrollments` returns the empty list, `isUserEnrolledInClass`
returns false (so a failing pre-enroll check reads as not enrolled), and
`getUserByEmail` returns null — each indistinguishable from the value
returned on an empty table. -/
theorem readOps_collapse_store_errors (store : List Enrollment)
    (users : List User) (email classId : String) :
    getUserEnrollments store email true = [] ∧
    isUserEnrolledInClass store email classId true = false ∧
    getUserByEmail users email true = none ∧
    getUserEnrollments store email true = getUserEnrollments [] email false ∧
    isUserEnrolledInClass store email classId true
      = isUserEnrolledInClass [] email classId false ∧
    getUserByEmail users email true = getUserByEmail [] email false := by
  refine ⟨rfl, rfl, ?_, rfl, rfl, ?_⟩ <;>
  · unfold getUserByEmail
    split
    · rfl
    · rfl

/-! ## Repository helper lemmas -/

lemma handleDynamo_conditional_eq_conflict :
    handleDynamoDBError "ConditionalCheckFailedException"
      = DatabaseErrorKind.conflict := by rfl

lemma getUserEnrollments_append_active (store : List Enrollment)
    (email : String) (rec : Enrollment)
    (he : rec.email = normalizeEmail email)
    (hs : rec.status = EStatus.active) :
    getUserEnrollments (store ++ [rec]) email false
      = getUserEnrollments store email false ++ [rec] := by
  simp [getUserEnrollments, List.filter_append, he, hs]

lemma getUserEnrollments_filter_fresh (store : List Enrollment)
    (email cid : String)
    (hfresh : ∀ e ∈ store, e.email = normalizeEmail email →
      e.status = EStatus.active → e.classId ≠ cid) :
    (getUserEnrollments store email false).filter
      (fun e => e.classId == cid) = [] := by
  rw [List.filter_eq_nil_iff]
  intro e he
  simp only [getUserEnrollments, Bool.false_eq_true, if_false,
    List.mem_filter, beq_iff_eq] at he
  simpa using hfresh e he.1.1 he.1.2 he.2

lemma isUserEnrolledInClass_eq_false_of_fresh (store : List Enrollment)
    (email cid : String)
    (hfresh : ∀ e ∈ store, e.email = normalizeEmail email →
      e.status = EStatus.active → e.classId ≠ cid) :
    isUserEnrolledInClass store email cid false = false := by
  rw [isUserEnrolledInClass, List.any_eq_false]
  exact List.filter_eq_nil_iff.mp
    (getUserEnrollments_filter_fresh store email cid hfresh)

lemma isUserEnrolledInClass_append_self (store : List Enrollment)
    (email cid : String) (rec : Enrollment)
    (he : rec.email = normalizeEmail email)
    (hs : rec.status = EStatus.active) (hc : rec.classId = cid) :
    isUserEnrolledInClass (store ++ [rec]) email cid false = true := by
  rw [isUserEnrolledInClass, List.any_eq_true]
  refine ⟨rec, ?_, by simp [hc]⟩
  rw [getUserEnrollments_append_active store email rec he hs]
  exact List.mem_append_right _ (by simp)

/-! ## Claim C7 (confirmed) -/

/-- C7: `createUser` is create-if-absent keyed on the normalized email.
With inputs passing the repository validators, it fails with `Conflict`
exactly when a record for the normalized email already exists — the
rejection comes from the single conditional put
(`attribute_not_exists(email)`), with no separate read — otherwise it
appends the one new normalized record; consequently, on a table whose
emails are pairwise distinct, every successful creation preserves that
at most one record exists per normalized email. -/
theorem createUser_atomic_create_if_absent
    (users : List User) (email passwordHash name studentId now : String)
    (hv1 : validateEmailB email = true) (hv2 : validateNameB name = true)
    (hv3 : validateStudentIdB studentId = true)
    (hv4 : passwordHash.isEmpty = false) :
    (users.any (fun u => u.email == normalizeEmail email) = true →
      createUser users email passwordHash name studentId now false
        = .error .conflict) ∧
    (users.any (fun u => u.email == normalizeEmail email) = false →
      createUser users email passwordHash name studentId now false
        = .ok (users ++
            [⟨normalizeEmail email, passwordHash, strTrim name, strTrim studentId, now, now⟩],
            ⟨normalizeEmail email, passwordHash, strTrim name, strTrim studentId, now, now⟩)) ∧
    (∀ (putFails : Bool) (users2 : List User) (u : User),
      (users.map (fun v => v.email)).Nodup →
      createUser users email passwordHash name studentId now putFails
        = .ok (users2, u) →
      (users2.map (fun v => v.email)).Nodup) := by
  refine ⟨?_, ?_, ?_⟩
  · intro hdup
    simp [createUser, hv1, hv2, hv3, hv4, hdup,
      handleDynamo_conditional_eq_conflict]
  · intro hfree
    simp [createUser, hv1, hv2, hv3, hv4, hfree]
  · intro putFails users2 u hnodup hok
    simp only [createUser, hv1, hv2, hv3, hv4, Bool.not_true, Bool.not_false,
      Bool.false_eq_true, if_false] at hok
    split at hok
    · exact absurd hok (by simp)
    · rename_i hfree
      split at hok
      · exact absurd hok (by simp)
      · obtain ⟨h2, -⟩ := Prod.mk.injEq .. ▸ Except.ok.inj hok
        subst h2
        rw [List.map_append, List.nodup_append]
        refine ⟨hnodup, by simp, ?_⟩
        intro x hx hx2
        simp only [List.map_cons, List.map_nil, List.mem_singleton] at hx2
        rw [List.mem_map] at hx
        obtain ⟨v, hv, rfl⟩ := hx
        rw [Bool.not_eq_true] at hfree
        have hne := List.any_eq_false.mp hfree v hv
        simp at hne
        exact hne hx2

/-- Witness for C7: a fresh table accepts the creation, a table already
holding the normalized email rejects it with `Conflict`. -/
theorem createUser_atomic_create_if_absent_witness :
    createUser [] "a@b.co" "h" "Jo" "12345" "t" false
      = .ok ([⟨"a@b.co", "h", "Jo", "12345", "t", "t"⟩],
             ⟨"a@b.co", "h", "Jo", "12345", "t", "t"⟩) ∧
    createUser [⟨"a@b.co", "x", "Al", "54321", "t", "t"⟩] "a@b.co" "h" "Jo"
        "12345" "t" false
      = .error .conflict := by
  constructor
  · exact (createUser_atomic_create_if_absent [] "a@b.co" "h" "Jo" "12345" "t"
      (by decide) (by decide) (by decide) (by decide)).2.1 (by decide)
  · exact (createUser_atomic_create_if_absent
      [⟨"a@b.co", "x", "Al", "54321", "t", "t"⟩] "a@b.co" "h" "Jo" "12345" "t"
      (by decide) (by decide) (by decide) (by decide)).1 (by decide)

/-! ## Claim C6 (confirmed) -/

/-- C6: enrolling an email with no prior active enrollment for the pair
makes `getUserEnrollments` return exactly one record with that `classId`
(and every returned record has status active), makes
`isUserEnrolledInClass` return true, and in general
`isUserEnrolledInClass` is true iff some record returned by
`getUserEnrollments` carries the matching `classId`. -/
theorem enroll_then_query_roundtrip
    (store newStore : List Enrollment) (email className classId nowIso : String)
    (nowMs : Int)
    (hfresh : ∀ e ∈ store, e.email = normalizeEmail email →
      e.status = EStatus.active → e.classId ≠ classId)
    (hok : enrollInClass store email className classId nowIso nowMs false
      = .ok newStore) :
    ((getUserEnrollments newStore email false).filter
      (fun e => e.classId == classId)).length = 1 ∧
    (∀ e ∈ getUserEnrollments newStore email false, e.status = EStatus.active) ∧
    isUserEnrolledInClass newStore email classId false = true ∧
    (∀ (st : List Enrollment) (em cid : String) (sf : Bool),
      isUserEnrolledInClass st em cid sf = true
        ↔ ∃ e ∈ getUserEnrollments st em sf, e.classId = cid) := by
  have hiff : ∀ (st : List Enrollment) (em cid : String) (sf : Bool),
      isUserEnrolledInClass st em cid sf = true
        ↔ ∃ e ∈ getUserEnrollments st em sf, e.classId = cid := by
    intro st em cid sf
    simp [isUserEnrolledInClass, List.any_eq_true]
  have hactive : ∀ (st : List Enrollment) (em : String) (e : Enrollment),
      e ∈ getUserEnrollments st em false → e.status = EStatus.active := by
    intro st em e he
    simp only [getUserEnrollments, Bool.false_eq_true, if_false,
      List.mem_filter, beq_iff_eq] at he
    exact he.2
  simp only [enrollInClass, Bool.false_eq_true, if_false] at hok
  split at hok
  · exact absurd hok (by simp)
  · rename_i hnoid
    obtain rfl := (Except.ok.inj hok).symm
    set rec : Enrollment :=
      { id := email ++ "-" ++ classId ++ "-" ++ toString nowMs
        email := normalizeEmail email
        className := className
        classId := classId
        enrolledAt := nowIso
        status := .active
        updatedAt := none } with hrec
    have hsplit : getUserEnrollments (store ++ [rec]) email false
        = getUserEnrollments store email false ++ [rec] :=
      getUserEnrollments_append_active store email rec rfl rfl
    refine ⟨?_, fun e he => hactive _ _ e he, ?_, hiff⟩
    · rw [hsplit, List.filter_append,
        getUserEnrollments_filter_fresh store email classId hfresh]
      simp [hrec]
    · exact isUserEnrolledInClass_append_self store email classId rec rfl rfl rfl

/-- Witness for C6 at a concrete fresh store. -/
theorem enroll_then_query_roundtrip_witness :
    ((getUserEnrollments
        [⟨"a@b.co-1-0", "a@b.co", "Web Development 101", "1", "t",
          EStatus.active, none⟩] "a@b.co" false).filter
      (fun e => e.classId == "1")).length = 1 ∧
    (∀ e ∈ getUserEnrollments
        [⟨"a@b.co-1-0", "a@b.co", "Web Development 101", "1", "t",
          EStatus.active, none⟩] "a@b.co" false,
      e.status = EStatus.active) ∧
    isUserEnrolledInClass
        [⟨"a@b.co-1-0", "a@b.co", "Web Development 101", "1", "t",
          EStatus.active, none⟩] "a@b.co" "1" false = true ∧
    (∀ (st : List Enrollment) (em cid : String) (sf : Bool),
      isUserEnrolledInClass st em cid sf = true
        ↔ ∃ e ∈ getUserEnrollments st em sf, e.classId = cid) :=
  enroll_then_query_roundtrip []
    [⟨"a@b.co-1-0", "a@b.co", "Web Development 101", "1", "t",
      EStatus.active, none⟩]
    "a@b.co" "Web Development 101" "1" "t" 0 (by simp) (by rfl)

/-! ## Claim C5 (confirmed) -/

/-- C5: when `unenrollFromClass` finds a matching active enrollment it
rewrites exactly that record — same `id`, same `enrolledAt`, status
`dropped`, fresh `updatedAt` — deleting nothing physically: the store
keeps its length, every other record is untouched, the record with the
matched id in the new store is exactly the single dropped rewrite, the
dropped record still appears in `getAllEnrollments`, and afterwards
`isUserEnrolledInClass` for the pair is false. -/
theorem drop_soft_delete_frame
    (store newStore : List Enrollment) (email key nowIso : String)
    (enr : Enrollment)
    (hids : (store.map (fun e => e.id)).Nodup)
    (hfind : (getUserEnrollments store email false).find?
      (fun e => e.classId == key || e.className == key) = some enr)
    (huniq : ∀ e ∈ store, e.email = normalizeEmail email →
      e.status = EStatus.active → e.classId = key → e = enr)
    (hnew : newStore = store.map (fun e => if e.id == enr.id then
      { enr with status := EStatus.dropped, updatedAt := some nowIso } else e)) :
    unenrollFromClass store email key nowIso false false = .ok newStore ∧
    newStore.length = store.length ∧
    { enr with status := EStatus.dropped, updatedAt := some nowIso }
      ∈ getAllEnrollments newStore false ∧
    ({ enr with status := EStatus.dropped, updatedAt := some nowIso }).id
      = enr.id ∧
    ({ enr with status := EStatus.dropped, updatedAt := some nowIso }).enrolledAt
      = enr.enrolledAt ∧
    (∀ e ∈ store, e.id ≠ enr.id → e ∈ newStore) ∧
    newStore.filter (fun e => e.id == enr.id)
      = [{ enr with status := EStatus.dropped, updatedAt := some nowIso }] ∧
    isUserEnrolledInClass newStore email key false = false := by
  have hmem0 : enr ∈ getUserEnrollments store email false :=
    List.mem_of_find?_eq_some hfind
  have hingred : enr ∈ store ∧ enr.status = EStatus.active ∧
      enr.email = normalizeEmail email := by
    simpa [getUserEnrollments, List.mem_filter, and_assoc] using hmem0
  obtain ⟨hmem, hactive, hemail⟩ := hingred
  have hput : putItem store
      { enr with status := EStatus.dropped, updatedAt := some nowIso }
      = newStore := by
    rw [putItem, if_pos, hnew]
    exact List.any_eq_true.mpr ⟨enr, hmem, by simp⟩
  have hone : ∀ (l : List Enrollment), (l.map (fun e => e.id)).Nodup →
      enr ∈ l → l.filter (fun e => e.id == enr.id) = [enr] := by
    intro l
    induction l with
    | nil => simp
    | cons a as ih =>
      intro hnd hm
      have hna2 : ∀ x ∈ as, x.id ≠ a.id := by
        intro x hx hxa
        simp only [List.map_cons, List.nodup_cons] at hnd
        exact hnd.1 (List.mem_map.mpr ⟨x, hx, hxa⟩)
      have hnd2 : (as.map (fun e => e.id)).Nodup := by
        simp only [List.map_cons, List.nodup_cons] at hnd
        exact hnd.2
      by_cases hae : a = enr
      · subst hae
        have hnil : as.filter (fun e => e.id == a.id) = [] :=
          List.filter_eq_nil_iff.mpr (fun x hx => by simpa using hna2 x hx)
        simp [List.filter_cons, hnil]
      · have hm2 : enr ∈ as := by
          rcases List.mem_cons.mp hm with h | h
          · exact absurd h.symm hae
          · exact h
        have hne : (a.id == enr.id) = false := by
          rw [beq_eq_false_iff_ne]
          intro h2
          exact hna2 enr hm2 h2.symm
        simp only [List.filter_cons, hne, Bool.false_eq_true, if_false]
        exact ih hnd2 hm2
  refine ⟨?_, by rw [hnew, List.length_map], ?_, rfl, rfl, ?_, ?_, ?_⟩
  · rw [unenrollFromClass, unenrollBody, hfind]
    simp only [Bool.false_eq_true, if_false, hput]
  · rw [getAllEnrollments, if_neg (by simp), hnew]
    refine List.mem_map.mpr ⟨enr, hmem, by simp⟩
  · intro e he hne
    rw [hnew]
    refine List.mem_map.mpr ⟨e, he, ?_⟩
    rw [if_neg (by simpa using hne)]
  · have hcomp : ((fun e => e.id == enr.id) ∘ (fun e =>
        if (e.id == enr.id) = true then
          { enr with status := EStatus.dropped, updatedAt := some nowIso }
        else e)) = (fun e => e.id == enr.id) := by
      funext y
      by_cases hy : (y.id == enr.id) = true
      · have hy2 : y.id = enr.id := by simpa using hy
        simp [hy2]
      · have hy2 : ¬(y.id = enr.id) := by simpa using hy
        simp [hy2]
    rw [hnew, List.filter_map, hcomp, hone store hids hmem]
    simp
  · rw [Bool.eq_false_iff]
    intro hany
    rw [isUserEnrolledInClass, List.any_eq_true] at hany
    obtain ⟨x, hx, hxkey⟩ := hany
    rw [beq_iff_eq] at hxkey
    have hx2 : x ∈ newStore ∧ x.status = EStatus.active ∧
        x.email = normalizeEmail email := by
      simpa [getUserEnrollments, List.mem_filter, and_assoc] using hx
    obtain ⟨hxin, hxactive, hxemail⟩ := hx2
    rw [hnew] at hxin
    obtain ⟨y, hy, hyx⟩ := List.mem_map.mp hxin
    by_cases hid : (y.id == enr.id)
    · rw [if_pos hid] at hyx
      rw [← hyx] at hxactive
      simp at hxactive
    · rw [if_neg hid] at hyx
      subst hyx
      have := huniq y hy hxemail hxactive hxkey
      subst this
      simp at hid

/-- Witness for C5 at a concrete one-record store. -/
theorem drop_soft_delete_frame_witness :
    unenrollFromClass
      [⟨"a@b.co-1-5", "a@b.co", "Web Development 101", "1", "t0",
        EStatus.active, none⟩] "a@b.co" "1" "t1" false false
      = .ok [⟨"a@b.co-1-5", "a@b.co", "Web Development 101", "1", "t0",
          EStatus.dropped, some "t1"⟩] ∧
    ([⟨"a@b.co-1-5", "a@b.co", "Web Development 101", "1", "t0",
        EStatus.dropped, some "t1"⟩] : List Enrollment).length
      = ([⟨"a@b.co-1-5", "a@b.co", "Web Development 101", "1", "t0",
          EStatus.active, none⟩] : List Enrollment).length ∧
    (⟨"a@b.co-1-5", "a@b.co", "Web Development 101", "1", "t0",
        EStatus.dropped, some "t1"⟩ : Enrollment)
      ∈ getAllEnrollments
        [⟨"a@b.co-1-5", "a@b.co", "Web Development 101", "1", "t0",
          EStatus.dropped, some "t1"⟩] false ∧
    isUserEnrolledInClass
      [⟨"a@b.co-1-5", "a@b.co", "Web Development 101", "1", "t0",
        EStatus.dropped, some "t1"⟩] "a@b.co" "1" false = false := by
  have h := drop_soft_delete_frame
    [⟨"a@b.co-1-5", "a@b.co", "Web Development 101", "1", "t0",
      EStatus.active, none⟩]
    [⟨"a@b.co-1-5", "a@b.co", "Web Development 101", "1", "t0",
      EStatus.dropped, some "t1"⟩]
    "a@b.co" "1" "t1"
    ⟨"a@b.co-1-5", "a@b.co", "Web Development 101", "1", "t0",
      EStatus.active, none⟩
    (by decide) (by rfl) (by decide) (by rfl)
  exact ⟨h.1, h.2.1, h.2.2.1, h.2.2.2.2.2.2.2⟩

/-! ## Claim C4 (corrected) -/

/-- C4 counterexample: with no matching active enrollment the inner body
of `unenrollFromClass` does throw `'Enrollment not found'`, but the
function's own catch block absorbs it and rethrows the generic
`'Failed to unenroll from class'` failure — the very outcome produced by
a backing-store put failure — and the `DELETE` handler answers with the
generic 500 response, not a NotFound domain error. -/
theorem unenroll_notFound_absorbed_counterexample :
    unenrollBody [] "a@b.co" "1" "t" false false
      = .error "Enrollment not found" ∧
    unenrollFromClass [] "a@b.co" "1" "t" false false
      = DropOutcome.genericFailure ∧
    unenrollFromClass
      [⟨"a@b.co-1-5", "a@b.co", "Web Development 101", "1", "t0",
        EStatus.active, none⟩] "a@b.co" "1" "t" false true
      = DropOutcome.genericFailure ∧
    (enrollmentsDELETE [] ⟨true, true, some ⟨"a@b.co", "N", "S"⟩,
        some (some "1")⟩ "t" false false).1
      = DeleteOutcome.internalError := by
  exact ⟨rfl, rfl, rfl, rfl⟩

/-- C4 amended: when no active record of the email matches the lookup key
by `classId` or `className`, `unenrollFromClass` does fail — the body
raises the internal `'Enrollment not found'` error — but its catch block
collapses it into the single generic failure, so the caller observes the
generic `'Failed to unenroll from class'` outcome (a 500 from the
`DELETE` handler), not a NotFound domain error. -/
theorem unenroll_no_match_generic_failure
    (store : List Enrollment) (su : SessionUser) (key nowIso : String)
    (sf pf : Bool)
    (hsu : su.email.isEmpty = false) (hkey : key.isEmpty = false)
    (h : (getUserEnrollments store su.email sf).find?
      (fun e => e.classId == key || e.className == key) = none) :
    unenrollBody store su.email key nowIso sf pf
      = .error "Enrollment not found" ∧
    unenrollFromClass store su.email key nowIso sf pf
      = DropOutcome.genericFailure ∧
    enrollmentsDELETE store ⟨true, true, some su, some (some key)⟩ nowIso sf pf
      = (DeleteOutcome.internalError, store) := by
  have h1 : unenrollBody store su.email key nowIso sf pf
      = .error "Enrollment not found" := by
    rw [unenrollBody, h]
  have h2 : unenrollFromClass store su.email key nowIso sf pf
      = DropOutcome.genericFailure := by
    rw [unenrollFromClass, h1]
  refine ⟨h1, h2, ?_⟩
  simp [enrollmentsDELETE, resolveAuth, hsu, hkey, h2]

/-- Witness for the amended C4 theorem at a concrete empty store. -/
theorem unenroll_no_match_generic_failure_witness :
    unenrollBody [] "a@b.co" "2" "t" false false
      = .error "Enrollment not found" ∧
    unenrollFromClass [] "a@b.co" "2" "t" false false
      = DropOutcome.genericFailure ∧
    enrollmentsDELETE [] ⟨true, true, some ⟨"a@b.co", "N", "S"⟩,
        some (some "2")⟩ "t" false false
      = (DeleteOutcome.internalError, []) :=
  unenroll_no_match_generic_failure [] ⟨"a@b.co", "N", "S"⟩ "2" "t"
    false false (by rfl) (by rfl) (by rfl)

/-! ## Claim C9 (confirmed) -/

/-- C9: each repository-touching enrollment handler invoked without a
resolved authenticated identity — no session, or a session whose email is
empty — fails with its 401 unauthorized outcome and returns the stored
state unchanged: no enrollment record is created or modified. -/
theorem unauthenticated_calls_rejected_without_writes
    (store : List Enrollment) (session : Option SessionUser)
    (ra : Bool) (pb : Option (Option EnrollBody)) (db : Option (Option String))
    (nowIso : String) (nowMs : Int) (sf pf : Bool)
    (hs : resolveAuth session = none) :
    enrollmentsGET store session sf = (GetOutcome.unauthorized, store) ∧
    enrollmentsPOST store ⟨true, true, session, ra, pb⟩ nowIso nowMs sf pf
      = (PostOutcome.unauthorized, store) ∧
    enrollmentsDELETE store ⟨true, true, session, db⟩ nowIso sf pf
      = (DeleteOutcome.unauthorized, store) := by
  refine ⟨?_, ?_, ?_⟩
  · rw [enrollmentsGET, hs]
  · simp only [enrollmentsPOST, Bool.not_true, Bool.false_eq_true, if_false, hs]
  · simp only [enrollmentsDELETE, Bool.not_true, Bool.false_eq_true, if_false, hs]

/-- Witness for C9: an absent session is rejected by all three handlers,
leaving a nonempty store untouched. -/
theorem unauthenticated_calls_rejected_without_writes_witness :
    enrollmentsGET
      [⟨"a@b.co-1-5", "a@b.co", "Web Development 101", "1", "t0",
        EStatus.active, none⟩] none false
      = (GetOutcome.unauthorized,
         [⟨"a@b.co-1-5", "a@b.co", "Web Development 101", "1", "t0",
           EStatus.active, none⟩]) ∧
    enrollmentsPOST
      [⟨"a@b.co-1-5", "a@b.co", "Web Development 101", "1", "t0",
        EStatus.active, none⟩]
      ⟨true, true, none, true, some (some ⟨"1", EnrollAction.enroll⟩)⟩
      "t" 0 false false
      = (PostOutcome.unauthorized,
         [⟨"a@b.co-1-5", "a@b.co", "Web Development 101", "1", "t0",
           EStatus.active, none⟩]) ∧
    enrollmentsDELETE
      [⟨"a@b.co-1-5", "a@b.co", "Web Development 101", "1", "t0",
        EStatus.active, none⟩]
      ⟨true, true, none, some (some "1")⟩ "t" false false
      = (DeleteOutcome.unauthorized,
         [⟨"a@b.co-1-5", "a@b.co", "Web Development 101", "1", "t0",
           EStatus.active, none⟩]) :=
  unauthenticated_calls_rejected_without_writes
    [⟨"a@b.co-1-5", "a@b.co", "Web Development 101", "1", "t0",
      EStatus.active, none⟩]
    none true (some (some ⟨"1", EnrollAction.enroll⟩)) (some (some "1"))
    "t" 0 false false (by rfl)

/-! ## Claim C1 (corrected) -/

/-- C1 counterexample: calling the `POST` enroll verb twice in sequence
for the same authenticated identity and `classId` does not succeed both
times.  The first call returns the 201 created success; the second is
stopped by the `isUserEnrolledInClass` pre-check and answered with the
409 `'You are already enrolled in this class'` error response — a
`createErrorResponse` with `success: false` — not a non-error
already-enrolled success. -/
theorem enroll_twice_second_call_is_error_counterexample :
    (enrollmentsPOST [] ⟨true, true, some ⟨"a@b.co", "N", "S"⟩, true,
        some (some ⟨"1", EnrollAction.enroll⟩)⟩ "t0" 0 false false).1
      = PostOutcome.created "1" "Web Development 101" ∧
    (enrollmentsPOST
        (enrollmentsPOST [] ⟨true, true, some ⟨"a@b.co", "N", "S"⟩, true,
          some (some ⟨"1", EnrollAction.enroll⟩)⟩ "t0" 0 false false).2
        ⟨true, true, some ⟨"a@b.co", "N", "S"⟩, true,
          some (some ⟨"1", EnrollAction.enroll⟩)⟩ "t1" 1 false false).1
      = PostOutcome.conflict "You are already enrolled in this class" ∧
    PostOutcome.isSuccess
      (PostOutcome.conflict "You are already enrolled in this class")
      = false := by
  exact ⟨rfl, rfl, rfl⟩

/-- C1 amended: for an authenticated identity and valid `classId` with no
prior active enrollment, the first sequential Enroll succeeds (201) and
writes one active record; the second sequential Enroll is rejected by the
pre-check with the 409 conflict error response — an error, not a
non-error already-enrolled success — and performs no write, so exactly
one active record exists for the pair afterwards.  The non-error
already-enrolled success (HTTP 200) is produced only on the race path
where the pre-check reports not-enrolled but the repository conditional
write itself fails with the already-enrolled error. -/
theorem enroll_twice_amended
    (store : List Enrollment) (su : SessionUser) (cid cn : String)
    (t0 t1 : String) (m0 m1 : Int)
    (hsu : su.email.isEmpty = false)
    (hfresh : ∀ e ∈ store, e.email = normalizeEmail su.email →
      e.status = EStatus.active → e.classId ≠ cid)
    (hcn : classNames cid = some cn)
    (hnoid : store.any (fun e =>
      e.id == su.email ++ "-" ++ cid ++ "-" ++ toString m0) = false) :
    enrollmentsPOST store ⟨true, true, some su, true,
        some (some ⟨cid, EnrollAction.enroll⟩)⟩ t0 m0 false false
      = (PostOutcome.created cid cn,
         store ++ [⟨su.email ++ "-" ++ cid ++ "-" ++ toString m0,
           normalizeEmail su.email, cn, cid, t0, EStatus.active, none⟩]) ∧
    enrollmentsPOST (store ++ [⟨su.email ++ "-" ++ cid ++ "-" ++ toString m0,
        normalizeEmail su.email, cn, cid, t0, EStatus.active, none⟩])
      ⟨true, true, some su, true, some (some ⟨cid, EnrollAction.enroll⟩)⟩
      t1 m1 false false
      = (PostOutcome.conflict "You are already enrolled in this class",
         store ++ [⟨su.email ++ "-" ++ cid ++ "-" ++ toString m0,
           normalizeEmail su.email, cn, cid, t0, EStatus.active, none⟩]) ∧
    PostOutcome.isSuccess
      (PostOutcome.conflict "You are already enrolled in this class")
      = false ∧
    ((getUserEnrollments (store ++
        [⟨su.email ++ "-" ++ cid ++ "-" ++ toString m0,
          normalizeEmail su.email, cn, cid, t0, EStatus.active, none⟩])
        su.email false).filter (fun e => e.classId == cid)).length = 1 ∧
    (∀ (st : List Enrollment) (tI : String) (m : Int) (sf pf : Bool),
      isUserEnrolledInClass st su.email cid sf = false →
      enrollInClass st su.email cn cid tI m pf = .error .alreadyEnrolled →
      enrollmentsPOST st ⟨true, true, some su, true,
        some (some ⟨cid, EnrollAction.enroll⟩)⟩ tI m sf pf
        = (PostOutcome.alreadyEnrolledOk cid cn, st)) := by
  set rec : Enrollment := ⟨su.email ++ "-" ++ cid ++ "-" ++ toString m0,
    normalizeEmail su.email, cn, cid, t0, EStatus.active, none⟩ with hrec
  have hpre1 : isUserEnrolledInClass store su.email cid false = false :=
    isUserEnrolledInClass_eq_false_of_fresh store su.email cid hfresh
  have he : enrollInClass store su.email cn cid t0 m0 false
      = .ok (store ++ [rec]) := by
    simp only [enrollInClass, hnoid, Bool.false_eq_true, if_false]
  have hpre2 : isUserEnrolledInClass (store ++ [rec]) su.email cid false
      = true :=
    isUserEnrolledInClass_append_self store su.email cid rec rfl rfl rfl
  refine ⟨?_, ?_, rfl, ?_, ?_⟩
  · simp [enrollmentsPOST, resolveAuth, hsu, hpre1, hcn, he]
  · simp [enrollmentsPOST, resolveAuth, hsu, hpre2]
  · rw [getUserEnrollments_append_active store su.email rec rfl rfl,
      List.filter_append,
      getUserEnrollments_filter_fresh store su.email cid hfresh]
    simp
  · intro st tI m sf pf hnotpre hdup
    simp [enrollmentsPOST, resolveAuth, hsu, hnotpre, hcn, hdup]

/-- Witness for the amended C1 theorem at a concrete fresh store. -/
theorem enroll_twice_amended_witness :
    enrollmentsPOST [] ⟨true, true, some ⟨"a@b.co", "N", "S"⟩, true,
        some (some ⟨"1", EnrollAction.enroll⟩)⟩ "t0" 0 false false
      = (PostOutcome.created "1" "Web Development 101",
         [⟨"a@b.co-1-0", "a@b.co", "Web Development 101", "1", "t0",
           EStatus.active, none⟩]) ∧
    enrollmentsPOST
      [⟨"a@b.co-1-0", "a@b.co", "Web Development 101", "1", "t0",
        EStatus.active, none⟩]
      ⟨true, true, some ⟨"a@b.co", "N", "S"⟩, true,
        some (some ⟨"1", EnrollAction.enroll⟩)⟩ "t1" 1 false false
      = (PostOutcome.conflict "You are already enrolled in this class",
         [⟨"a@b.co-1-0", "a@b.co", "Web Development 101", "1", "t0",
           EStatus.active, none⟩]) ∧
    ((getUserEnrollments
        [⟨"a@b.co-1-0", "a@b.co", "Web Development 101", "1", "t0",
          EStatus.active, none⟩] "a@b.co" false).filter
      (fun e => e.classId == "1")).length = 1 := by
  have h := enroll_twice_amended [] ⟨"a@b.co", "N", "S"⟩ "1"
    "Web Development 101" "t0" "t1" 0 1 (by rfl) (by simp) (by rfl) (by rfl)
  exact ⟨h.1, h.2.1, h.2.2.2.1⟩
